import Mathlib

/-!
Verification of the xwOBA matchup-computation pipeline.

The definitions below are a shallow embedding of the repository's
ingest pipeline (`src/pages/api/ingest.ts`), its display sort
(`src/pages/api/matchups.ts`) and the persisted `daily_matchups`
schema (migrations).  Numeric statistic values are modelled as
rationals; nullable database/JSON fields are modelled as `Option`.
-/

namespace XwobaMatchups

/-- Row of the `player_splits` table, restricted to the columns selected
by the ingest handler (`select('player_id, season, player_type,
vs_handedness, xwoba, avg_launch_angle, barrels_per_pa, hard_hit_pct,
avg_exit_velocity, k_percent, bb_percent, iso, swing_miss_percent, hrs,
pa')`).  Statistic columns are nullable. -/
structure Split where
  player_id : Nat
  season : Int
  player_type : String
  vs_handedness : String
  xwoba : Option ℚ
  avg_launch_angle : Option ℚ
  barrels_per_pa : Option ℚ
  hard_hit_pct : Option ℚ
  avg_exit_velocity : Option ℚ
  k_percent : Option ℚ
  bb_percent : Option ℚ
  iso : Option ℚ
  swing_miss_percent : Option ℚ
  hrs : Option ℚ
  pa : Option ℚ
  deriving DecidableEq

/-- The ephemeral `LookupPair` record built by `processTeamLineup` in the
ingest handler: one batter paired with the opposing probable pitcher. -/
structure LookupPair where
  gamePk : Nat
  homeTeamId : Nat
  awayTeamId : Nat
  homeTeamAbbr : Option String
  awayTeamAbbr : Option String
  pit : Nat
  bat : Nat
  batName : String
  pitName : String
  lineupPosition : Option Nat
  batterTeam : Option String
  pitcherTeam : Option String
  deriving DecidableEq

/-- Record pushed onto `upserts` by the ingest handler and persisted in the
`daily_matchups` table. -/
structure DailyMatchup where
  game_date : String
  game_pk : Nat
  home_team_id : Nat
  away_team_id : Nat
  game_home_team_abbreviation : Option String
  game_away_team_abbreviation : Option String
  batter_id : Nat
  pitcher_id : Nat
  batter_name : String
  pitcher_name : String
  batter_team : Option String
  pitcher_team : Option String
  lineup_position : Option Nat
  pitcher_hand : String
  batter_hand : String
  avg_xwoba : ℚ
  avg_launch_angle : ℚ
  avg_barrels_per_pa : ℚ
  avg_hard_hit_pct : ℚ
  avg_exit_velocity : ℚ
  avg_k_percent : ℚ
  avg_bb_percent : ℚ
  avg_iso : ℚ
  avg_swing_miss_percent : ℚ
  avg_hr_per_pa : ℚ
  deriving DecidableEq

/-- The `person` object of a roster entry (`p.person` in the ingest
handler); its `id` may be absent, in which case the entry is skipped. -/
structure Person where
  id : Option Nat
  fullName : String
  deriving DecidableEq

/-- One entry of a team's active roster as consumed by
`processTeamLineup`; the nested `person` object may be absent. -/
structure RosterPlayer where
  person : Option Person
  deriving DecidableEq

/-- The effective batter side the pitcher faces, from the ingest handler:
`handednessPitcherFaces` defaults to the batter's listed side; for a
switch hitter (`'S'`) it is `'L'` against a right-handed pitcher and
`'R'` against a left-handed pitcher, and any other pitching hand makes
the handler skip the matchup (modelled as `none`). -/
def handednessPitcherFaces (batSide pitSide : String) : Option String :=
  if batSide = "S" then
    if pitSide = "R" then some "L"
    else if pitSide = "L" then some "R"
    else none
  else some batSide

/-- Lookup of a split row, from the ingest handler's
`allSplits?.find(s => s.player_type === t && s.player_id === id &&
s.vs_handedness === hand)`. -/
def findSplit (allSplits : List Split) (ptype : String) (pid : Nat)
    (hand : String) : Option Split :=
  allSplits.find? fun s =>
    s.player_type == ptype && s.player_id == pid && s.vs_handedness == hand

/-- The averaged record pushed by the ingest handler once the gate has
passed, as a function of the two split rows' (non-null) metric values. -/
def mkRecordVals (gameDate : String) (p : LookupPair) (batSide pitSide : String)
    (ps_xwoba bs_xwoba ps_la bs_la ps_barrels bs_barrels ps_hh bs_hh ps_ev bs_ev
     ps_k bs_k ps_bb bs_bb ps_iso bs_iso ps_sm bs_sm ps_hrs bs_hrs ps_pa bs_pa : ℚ) :
    DailyMatchup :=
  { game_date := gameDate
    game_pk := p.gamePk
    home_team_id := p.homeTeamId
    away_team_id := p.awayTeamId
    game_home_team_abbreviation := p.homeTeamAbbr
    game_away_team_abbreviation := p.awayTeamAbbr
    batter_id := p.bat
    pitcher_id := p.pit
    batter_name := p.batName
    pitcher_name := p.pitName
    batter_team := p.batterTeam
    pitcher_team := p.pitcherTeam
    lineup_position := p.lineupPosition
    pitcher_hand := pitSide
    batter_hand := batSide
    avg_xwoba := (ps_xwoba + bs_xwoba) / 2
    avg_launch_angle := (ps_la + bs_la) / 2
    avg_barrels_per_pa := (ps_barrels + bs_barrels) / 2
    avg_hard_hit_pct := (ps_hh + bs_hh) / 2
    avg_exit_velocity := (ps_ev + bs_ev) / 2
    avg_k_percent := (ps_k + bs_k) / 2
    avg_bb_percent := (ps_bb + bs_bb) / 2
    avg_iso := (ps_iso + bs_iso) / 2
    avg_swing_miss_percent := (ps_sm + bs_sm) / 2
    avg_hr_per_pa := (ps_hrs / ps_pa + bs_hrs / bs_pa) / 2 }

def mkRecord (gameDate : String) (p : LookupPair) (batSide pitSide : String)
    (ps_xwoba bs_xwoba ps_la bs_la ps_barrels bs_barrels ps_hh bs_hh ps_ev bs_ev
     ps_k bs_k ps_bb bs_bb ps_iso bs_iso ps_sm bs_sm ps_hrs bs_hrs ps_pa bs_pa : ℚ) :
    Option DailyMatchup :=
  if 0 < ps_pa ∧ 0 < bs_pa then
    some (mkRecordVals gameDate p batSide pitSide ps_xwoba bs_xwoba ps_la bs_la
      ps_barrels bs_barrels ps_hh bs_hh ps_ev bs_ev ps_k bs_k
      ps_bb bs_bb ps_iso bs_iso ps_sm bs_sm ps_hrs bs_hrs ps_pa bs_pa)
  else none

/-- Body of the ingest handler's `lookupPairs.reduce` step for one pair:
resolve both hands, resolve the effective side, look up both split rows,
require every averaged metric non-null on both rows and both
plate-appearance counts positive, and build the averaged record;
otherwise produce nothing (the pair is skipped). -/
def buildUpsert (gameDate : String) (allSplits : List Split)
    (batMap pitMap : Nat → Option String) (p : LookupPair) :
    Option DailyMatchup :=
  match batMap p.bat, pitMap p.pit with
  | some batSide, some pitSide =>
    match handednessPitcherFaces batSide pitSide with
    | some hpf =>
      match findSplit allSplits "pitcher" p.pit hpf,
            findSplit allSplits "batter" p.bat pitSide with
      | some ps, some bs =>
        match ps.xwoba, bs.xwoba, ps.avg_launch_angle, bs.avg_launch_angle,
              ps.barrels_per_pa, bs.barrels_per_pa, ps.hard_hit_pct, bs.hard_hit_pct,
              ps.avg_exit_velocity, bs.avg_exit_velocity, ps.k_percent, bs.k_percent,
              ps.bb_percent, bs.bb_percent, ps.iso, bs.iso,
              ps.swing_miss_percent, bs.swing_miss_percent, ps.hrs, bs.hrs,
              ps.pa, bs.pa with
        | some ps_xwoba, some bs_xwoba, some ps_la, some bs_la,
          some ps_barrels, some bs_barrels, some ps_hh, some bs_hh,
          some ps_ev, some bs_ev, some ps_k, some bs_k,
          some ps_bb, some bs_bb, some ps_iso, some bs_iso,
          some ps_sm, some bs_sm, some ps_hrs, some bs_hrs,
          some ps_pa, some bs_pa =>
            mkRecord gameDate p batSide pitSide ps_xwoba bs_xwoba ps_la bs_la
              ps_barrels bs_barrels ps_hh bs_hh ps_ev bs_ev ps_k bs_k
              ps_bb bs_bb ps_iso bs_iso ps_sm bs_sm ps_hrs bs_hrs ps_pa bs_pa
        | _, _, _, _, _, _, _, _, _, _, _, _, _, _, _, _, _, _, _, _, _, _ => none
      | _, _ => none
    | none => none
  | _, _ => none

/-- The full `upserts` list: the ingest handler's reduce over
`lookupPairs`, keeping exactly the pairs for which `buildUpsert`
produces a record. -/
def buildUpserts (gameDate : String) (allSplits : List Split)
    (batMap pitMap : Nat → Option String) (pairs : List LookupPair) :
    List DailyMatchup :=
  pairs.filterMap (buildUpsert gameDate allSplits batMap pitMap)

/-- The ingest handler's `processTeamLineup`: iterate the full active
roster, skip entries with no person id, and emit one `LookupPair` per
remaining player against the opposing starter.  The lineup position is
the 1-indexed position of the player in the published batting order
(`indexOf` + 1) when present, and `none` otherwise. -/
def processTeamLineup (gamePk homeTeamId awayTeamId : Nat)
    (homeAbbr awayAbbr batterTeam pitcherTeam : Option String)
    (battingOrder : Option (List Nat)) (fullRoster : List RosterPlayer)
    (starterId : Nat) (starterName : String) : List LookupPair :=
  fullRoster.filterMap fun rp =>
    match rp.person with
    | none => none
    | some person =>
      match person.id with
      | none => none
      | some playerId =>
        some
          { gamePk := gamePk
            homeTeamId := homeTeamId
            awayTeamId := awayTeamId
            homeTeamAbbr := homeAbbr
            awayTeamAbbr := awayAbbr
            bat := playerId
            pit := starterId
            batName := person.fullName
            pitName := starterName
            lineupPosition :=
              match battingOrder with
              | none => none
              | some bo => (bo.indexOf? playerId).map (· + 1)
            batterTeam := batterTeam
            pitcherTeam := pitcherTeam }

/-- Natural key of a `daily_matchups` row, from the schema's
`daily_matchups_pkey PRIMARY KEY (game_date, batter_id, pitcher_id)`;
the Supabase `upsert` call conflicts on this key. -/
def dmKey (m : DailyMatchup) : String × Nat × Nat :=
  (m.game_date, m.batter_id, m.pitcher_id)

/-- Abstract state of the `daily_matchups` table: at most one row per
primary-key value. -/
def Table : Type := String × Nat × Nat → Option DailyMatchup

/-- Effect of upserting one record: the row at its key is replaced. -/
def applyUpsert (t : Table) (r : DailyMatchup) : Table :=
  fun k => if k = dmKey r then some r else t k

/-- Effect of the handler's batch `upsert(upserts)`: each record in order
replaces the row at its natural key. -/
def upsertAll (t : Table) (rs : List DailyMatchup) : Table :=
  rs.foldl applyUpsert t


/-- Characterisation helper: an emitted record determines both hands,
the effective side, both split rows, a non-null value for every gated
metric on each side, positive plate appearances, and the record's exact
field values. -/
theorem buildUpsert_elim (gd : String) (sp : List Split)
    (bm pm : Nat → Option String) (p : LookupPair) (m : DailyMatchup)
    (hm : buildUpsert gd sp bm pm p = some m) :
    ∃ batSide pitSide hpf ps bs,
      bm p.bat = some batSide ∧ pm p.pit = some pitSide ∧
      handednessPitcherFaces batSide pitSide = some hpf ∧
      findSplit sp "pitcher" p.pit hpf = some ps ∧
      findSplit sp "batter" p.bat pitSide = some bs ∧
      ∃ ps_xwoba bs_xwoba ps_la bs_la ps_barrels bs_barrels ps_hh bs_hh
        ps_ev bs_ev ps_k bs_k ps_bb bs_bb ps_iso bs_iso ps_sm bs_sm
        ps_hrs bs_hrs ps_pa bs_pa,
        ps.xwoba = some ps_xwoba ∧ bs.xwoba = some bs_xwoba ∧
        ps.avg_launch_angle = some ps_la ∧ bs.avg_launch_angle = some bs_la ∧
        ps.barrels_per_pa = some ps_barrels ∧ bs.barrels_per_pa = some bs_barrels ∧
        ps.hard_hit_pct = some ps_hh ∧ bs.hard_hit_pct = some bs_hh ∧
        ps.avg_exit_velocity = some ps_ev ∧ bs.avg_exit_velocity = some bs_ev ∧
        ps.k_percent = some ps_k ∧ bs.k_percent = some bs_k ∧
        ps.bb_percent = some ps_bb ∧ bs.bb_percent = some bs_bb ∧
        ps.iso = some ps_iso ∧ bs.iso = some bs_iso ∧
        ps.swing_miss_percent = some ps_sm ∧ bs.swing_miss_percent = some bs_sm ∧
        ps.hrs = some ps_hrs ∧ bs.hrs = some bs_hrs ∧
        ps.pa = some ps_pa ∧ bs.pa = some bs_pa ∧
        0 < ps_pa ∧ 0 < bs_pa ∧
        m = mkRecordVals gd p batSide pitSide ps_xwoba bs_xwoba ps_la bs_la
              ps_barrels bs_barrels ps_hh bs_hh ps_ev bs_ev ps_k bs_k
              ps_bb bs_bb ps_iso bs_iso ps_sm bs_sm ps_hrs bs_hrs ps_pa bs_pa := by
  unfold buildUpsert mkRecord at hm
  repeat' split at hm
  all_goals simp only [Option.some.injEq, reduceCtorEq] at hm
  rename_i y1 y2 batSide pitSide hbat hpit y3 hpf hhpf y4 y5 ps bs hps hbs x1 x2 x3 x4 x5 x6 x7 x8 x9 x10 x11 x12 x13 x14 x15 x16 x17 x18 x19 x20 x21 x22 v1 v2 v3 v4 v5 v6 v7 v8 v9 v10 v11 v12 v13 v14 v15 v16 v17 v18 v19 v20 v21 v22 h1 h2 h3 h4 h5 h6 h7 h8 h9 h10 h11 h12 h13 h14 h15 h16 h17 h18 h19 h20 h21 h22 hpa
  exact ⟨batSide, pitSide, hpf, ps, bs, hbat, hpit, hhpf, hps, hbs,
    v1, v2, v3, v4, v5, v6, v7, v8, v9, v10, v11, v12, v13, v14, v15, v16,
    v17, v18, v19, v20, v21, v22,
    h1, h2, h3, h4, h5, h6, h7, h8, h9, h10, h11, h12, h13, h14, h15, h16,
    h17, h18, h19, h20, h21, h22, hpa.1, hpa.2, hm.symm⟩


/-- Helper: a split row returned by `findSplit` matches the three lookup
keys (role, player id, opponent handedness). -/
theorem findSplit_spec (sp : List Split) (ptype : String) (pid : Nat)
    (hand : String) (s : Split) (h : findSplit sp ptype pid hand = some s) :
    s.player_type = ptype ∧ s.player_id = pid ∧ s.vs_handedness = hand := by
  have hp := List.find?_some h
  simp only [Bool.and_eq_true, beq_iff_eq] at hp
  exact ⟨hp.1.1, hp.1.2, hp.2⟩

/-- Concrete pitcher split row used to instantiate the theorems: a
right-handed pitcher's season-0 row versus left-handed batters, with
expected-wOBA 0.270. -/
def pitSplit1 : Split :=
  { player_id := 1, season := 0, player_type := "pitcher", vs_handedness := "L",
    xwoba := some (27/100), avg_launch_angle := some 10,
    barrels_per_pa := some (1/20), hard_hit_pct := some (2/5),
    avg_exit_velocity := some 88, k_percent := some (1/4),
    bb_percent := some (1/10), iso := some (3/20),
    swing_miss_percent := some (1/5), hrs := some 1, pa := some 2 }

/-- Concrete batter split row: a switch hitter's season-0 row versus
right-handed pitchers, with expected-wOBA 0.412. -/
def batSplit1 : Split :=
  { player_id := 2, season := 0, player_type := "batter", vs_handedness := "R",
    xwoba := some (103/250), avg_launch_angle := some 10,
    barrels_per_pa := some (1/20), hard_hit_pct := some (2/5),
    avg_exit_velocity := some 88, k_percent := some (1/4),
    bb_percent := some (1/10), iso := some (3/20),
    swing_miss_percent := some (1/5), hrs := some 1, pa := some 2 }

def splits1 : List Split := [pitSplit1, batSplit1]

/-- Concrete lookup pair: batter 2 versus pitcher 1. -/
def pair1 : LookupPair :=
  { gamePk := 7, homeTeamId := 10, awayTeamId := 20,
    homeTeamAbbr := some "AAA", awayTeamAbbr := some "BBB",
    pit := 1, bat := 2, batName := "B", pitName := "P",
    lineupPosition := some 3, batterTeam := some "AAA",
    pitcherTeam := some "BBB" }

/-- Concrete handedness lookup: batter 2 is a switch hitter. -/
def batMap1 : Nat → Option String := fun n => if n = 2 then some "S" else none

/-- Concrete handedness lookup: pitcher 1 throws right. -/
def pitMap1 : Nat → Option String := fun n => if n = 1 then some "R" else none

/-- The record the pipeline produces for `pair1`; its expected-wOBA
average is exactly 0.341 = (0.270 + 0.412) / 2. -/
def matchup1 : DailyMatchup :=
  { game_date := "2025-05-12", game_pk := 7, home_team_id := 10,
    away_team_id := 20, game_home_team_abbreviation := some "AAA",
    game_away_team_abbreviation := some "BBB", batter_id := 2,
    pitcher_id := 1, batter_name := "B", pitcher_name := "P",
    batter_team := some "AAA", pitcher_team := some "BBB",
    lineup_position := some 3, pitcher_hand := "R", batter_hand := "S",
    avg_xwoba := 341/1000, avg_launch_angle := 10,
    avg_barrels_per_pa := 1/20, avg_hard_hit_pct := 2/5,
    avg_exit_velocity := 88, avg_k_percent := 1/4, avg_bb_percent := 1/10,
    avg_iso := 3/20, avg_swing_miss_percent := 1/5, avg_hr_per_pa := 1/2 }

/-- Evaluation of the pipeline on the concrete inputs, shared by the
witnesses below. -/
theorem buildUpsert_pair1 :
    buildUpsert "2025-05-12" splits1 batMap1 pitMap1 pair1 = some matchup1 := by
  simp [buildUpsert, findSplit, splits1, pair1, batMap1, pitMap1, pitSplit1,
    batSplit1, handednessPitcherFaces, mkRecord, mkRecordVals, matchup1, List.find?]
  norm_num

/-- C1: every output metric of a surviving pair is the unweighted
arithmetic mean `(pitcher_value + batter_value) / 2` of the pitcher's
and batter's corresponding split metric. -/
theorem averaging_rule (gd : String) (sp : List Split)
    (bm pm : Nat → Option String) (p : LookupPair) (m : DailyMatchup)
    (hm : buildUpsert gd sp bm pm p = some m) :
    ∃ batSide pitSide hpf ps bs,
      bm p.bat = some batSide ∧ pm p.pit = some pitSide ∧
      handednessPitcherFaces batSide pitSide = some hpf ∧
      findSplit sp "pitcher" p.pit hpf = some ps ∧
      findSplit sp "batter" p.bat pitSide = some bs ∧
      (∃ x y, ps.xwoba = some x ∧ bs.xwoba = some y ∧
        m.avg_xwoba = (x + y) / 2) ∧
      (∃ x y, ps.avg_launch_angle = some x ∧ bs.avg_launch_angle = some y ∧
        m.avg_launch_angle = (x + y) / 2) ∧
      (∃ x y, ps.barrels_per_pa = some x ∧ bs.barrels_per_pa = some y ∧
        m.avg_barrels_per_pa = (x + y) / 2) ∧
      (∃ x y, ps.hard_hit_pct = some x ∧ bs.hard_hit_pct = some y ∧
        m.avg_hard_hit_pct = (x + y) / 2) ∧
      (∃ x y, ps.avg_exit_velocity = some x ∧ bs.avg_exit_velocity = some y ∧
        m.avg_exit_velocity = (x + y) / 2) ∧
      (∃ x y, ps.k_percent = some x ∧ bs.k_percent = some y ∧
        m.avg_k_percent = (x + y) / 2) ∧
      (∃ x y, ps.bb_percent = some x ∧ bs.bb_percent = some y ∧
        m.avg_bb_percent = (x + y) / 2) ∧
      (∃ x y, ps.iso = some x ∧ bs.iso = some y ∧
        m.avg_iso = (x + y) / 2) ∧
      (∃ x y, ps.swing_miss_percent = some x ∧ bs.swing_miss_percent = some y ∧
        m.avg_swing_miss_percent = (x + y) / 2) := by
  obtain ⟨batSide, pitSide, hpf, ps, bs, hbat, hpit, hhpf, hps, hbs,
    v1, v2, v3, v4, v5, v6, v7, v8, v9, v10, v11, v12, v13, v14, v15, v16,
    v17, v18, v19, v20, v21, v22,
    h1, h2, h3, h4, h5, h6, h7, h8, h9, h10, h11, h12, h13, h14, h15, h16,
    h17, h18, h19, h20, h21, h22, hpa1, hpa2, hrec⟩ :=
    buildUpsert_elim gd sp bm pm p m hm
  subst hrec
  exact ⟨batSide, pitSide, hpf, ps, bs, hbat, hpit, hhpf, hps, hbs,
    ⟨v1, v2, h1, h2, rfl⟩, ⟨v3, v4, h3, h4, rfl⟩, ⟨v5, v6, h5, h6, rfl⟩,
    ⟨v7, v8, h7, h8, rfl⟩, ⟨v9, v10, h9, h10, rfl⟩, ⟨v11, v12, h11, h12, rfl⟩,
    ⟨v13, v14, h13, h14, rfl⟩, ⟨v15, v16, h15, h16, rfl⟩,
    ⟨v17, v18, h17, h18, rfl⟩⟩

/-- Witness for C1 at the spec's literal inputs: pitcher expected-wOBA
0.270 and batter expected-wOBA 0.412 give an output average of exactly
0.341. -/
theorem averaging_rule_witness :
    buildUpsert "2025-05-12" splits1 batMap1 pitMap1 pair1 = some matchup1 ∧
    pitSplit1.xwoba = some (27/100) ∧ batSplit1.xwoba = some (103/250) ∧
    matchup1.avg_xwoba = 341/1000 ∧
    (∃ batSide pitSide hpf ps bs,
      batMap1 pair1.bat = some batSide ∧ pitMap1 pair1.pit = some pitSide ∧
      handednessPitcherFaces batSide pitSide = some hpf ∧
      findSplit splits1 "pitcher" pair1.pit hpf = some ps ∧
      findSplit splits1 "batter" pair1.bat pitSide = some bs ∧
      (∃ x y, ps.xwoba = some x ∧ bs.xwoba = some y ∧
        matchup1.avg_xwoba = (x + y) / 2) ∧
      (∃ x y, ps.avg_launch_angle = some x ∧ bs.avg_launch_angle = some y ∧
        matchup1.avg_launch_angle = (x + y) / 2) ∧
      (∃ x y, ps.barrels_per_pa = some x ∧ bs.barrels_per_pa = some y ∧
        matchup1.avg_barrels_per_pa = (x + y) / 2) ∧
      (∃ x y, ps.hard_hit_pct = some x ∧ bs.hard_hit_pct = some y ∧
        matchup1.avg_hard_hit_pct = (x + y) / 2) ∧
      (∃ x y, ps.avg_exit_velocity = some x ∧ bs.avg_exit_velocity = some y ∧
        matchup1.avg_exit_velocity = (x + y) / 2) ∧
      (∃ x y, ps.k_percent = some x ∧ bs.k_percent = some y ∧
        matchup1.avg_k_percent = (x + y) / 2) ∧
      (∃ x y, ps.bb_percent = some x ∧ bs.bb_percent = some y ∧
        matchup1.avg_bb_percent = (x + y) / 2) ∧
      (∃ x y, ps.iso = some x ∧ bs.iso = some y ∧
        matchup1.avg_iso = (x + y) / 2) ∧
      (∃ x y, ps.swing_miss_percent = some x ∧ bs.swing_miss_percent = some y ∧
        matchup1.avg_swing_miss_percent = (x + y) / 2)) :=
  ⟨buildUpsert_pair1, rfl, rfl, rfl,
    averaging_rule "2025-05-12" splits1 batMap1 pitMap1 pair1 matchup1
      buildUpsert_pair1⟩


/-- C3: a pair produces an output record only if both split rows exist
and every metric required for averaging is non-null on both rows;
contrapositively, a missing row or any single null required field on
either side yields no record for that pair. -/
theorem completeness_gate (gd : String) (sp : List Split)
    (bm pm : Nat → Option String) (p : LookupPair) (m : DailyMatchup)
    (hm : buildUpsert gd sp bm pm p = some m) :
    ∃ batSide pitSide hpf ps bs,
      bm p.bat = some batSide ∧ pm p.pit = some pitSide ∧
      handednessPitcherFaces batSide pitSide = some hpf ∧
      findSplit sp "pitcher" p.pit hpf = some ps ∧
      findSplit sp "batter" p.bat pitSide = some bs ∧
      ps.xwoba ≠ none ∧ ps.avg_launch_angle ≠ none ∧
      ps.barrels_per_pa ≠ none ∧ ps.hard_hit_pct ≠ none ∧
      ps.avg_exit_velocity ≠ none ∧ ps.k_percent ≠ none ∧
      ps.bb_percent ≠ none ∧ ps.iso ≠ none ∧
      ps.swing_miss_percent ≠ none ∧ ps.hrs ≠ none ∧ ps.pa ≠ none ∧
      bs.xwoba ≠ none ∧ bs.avg_launch_angle ≠ none ∧
      bs.barrels_per_pa ≠ none ∧ bs.hard_hit_pct ≠ none ∧
      bs.avg_exit_velocity ≠ none ∧ bs.k_percent ≠ none ∧
      bs.bb_percent ≠ none ∧ bs.iso ≠ none ∧
      bs.swing_miss_percent ≠ none ∧ bs.hrs ≠ none ∧ bs.pa ≠ none := by
  obtain ⟨batSide, pitSide, hpf, ps, bs, hbat, hpit, hhpf, hps, hbs,
    v1, v2, v3, v4, v5, v6, v7, v8, v9, v10, v11, v12, v13, v14, v15, v16,
    v17, v18, v19, v20, v21, v22,
    h1, h2, h3, h4, h5, h6, h7, h8, h9, h10, h11, h12, h13, h14, h15, h16,
    h17, h18, h19, h20, h21, h22, hpa1, hpa2, hrec⟩ :=
    buildUpsert_elim gd sp bm pm p m hm
  exact ⟨batSide, pitSide, hpf, ps, bs, hbat, hpit, hhpf, hps, hbs,
    by simp [h1], by simp [h3], by simp [h5], by simp [h7], by simp [h9],
    by simp [h11], by simp [h13], by simp [h15], by simp [h17],
    by simp [h19], by simp [h21],
    by simp [h2], by simp [h4], by simp [h6], by simp [h8], by simp [h10],
    by simp [h12], by simp [h14], by simp [h16], by simp [h18],
    by simp [h20], by simp [h22]⟩

/-- Witness for C3 at the concrete inputs. -/
theorem completeness_gate_witness :
    ∃ batSide pitSide hpf ps bs,
      batMap1 pair1.bat = some batSide ∧ pitMap1 pair1.pit = some pitSide ∧
      handednessPitcherFaces batSide pitSide = some hpf ∧
      findSplit splits1 "pitcher" pair1.pit hpf = some ps ∧
      findSplit splits1 "batter" pair1.bat pitSide = some bs ∧
      ps.xwoba ≠ none ∧ ps.avg_launch_angle ≠ none ∧
      ps.barrels_per_pa ≠ none ∧ ps.hard_hit_pct ≠ none ∧
      ps.avg_exit_velocity ≠ none ∧ ps.k_percent ≠ none ∧
      ps.bb_percent ≠ none ∧ ps.iso ≠ none ∧
      ps.swing_miss_percent ≠ none ∧ ps.hrs ≠ none ∧ ps.pa ≠ none ∧
      bs.xwoba ≠ none ∧ bs.avg_launch_angle ≠ none ∧
      bs.barrels_per_pa ≠ none ∧ bs.hard_hit_pct ≠ none ∧
      bs.avg_exit_velocity ≠ none ∧ bs.k_percent ≠ none ∧
      bs.bb_percent ≠ none ∧ bs.iso ≠ none ∧
      bs.swing_miss_percent ≠ none ∧ bs.hrs ≠ none ∧ bs.pa ≠ none :=
  completeness_gate "2025-05-12" splits1 batMap1 pitMap1 pair1 matchup1
    buildUpsert_pair1

/-- C2: for a switch-standing batter the pitcher's split row is keyed by
the effective side (vs L against a right-handed pitcher, vs R against a
left-handed pitcher), while the batter's own split row is always keyed
by the pitcher's actual throwing hand. -/
theorem switch_hitter_lookup (gd : String) (sp : List Split)
    (bm pm : Nat → Option String) (p : LookupPair) (m : DailyMatchup)
    (batSide pitSide : String)
    (hm : buildUpsert gd sp bm pm p = some m)
    (hb : bm p.bat = some batSide) (hp : pm p.pit = some pitSide) :
    (∃ bs, findSplit sp "batter" p.bat pitSide = some bs ∧
      bs.player_type = "batter" ∧ bs.player_id = p.bat ∧
      bs.vs_handedness = pitSide) ∧
    (batSide = "S" → pitSide = "R" →
      ∃ ps, findSplit sp "pitcher" p.pit "L" = some ps ∧
        ps.player_type = "pitcher" ∧ ps.player_id = p.pit ∧
        ps.vs_handedness = "L") ∧
    (batSide = "S" → pitSide = "L" →
      ∃ ps, findSplit sp "pitcher" p.pit "R" = some ps ∧
        ps.player_type = "pitcher" ∧ ps.player_id = p.pit ∧
        ps.vs_handedness = "R") := by
  obtain ⟨batSide2, pitSide2, hpf, ps, bs, hbat, hpit, hhpf, hps, hbs,
    v1, v2, v3, v4, v5, v6, v7, v8, v9, v10, v11, v12, v13, v14, v15, v16,
    v17, v18, v19, v20, v21, v22,
    h1, h2, h3, h4, h5, h6, h7, h8, h9, h10, h11, h12, h13, h14, h15, h16,
    h17, h18, h19, h20, h21, h22, hpa1, hpa2, hrec⟩ :=
    buildUpsert_elim gd sp bm pm p m hm
  have hbeq : batSide = batSide2 := by
    rw [hb] at hbat; exact Option.some.inj hbat
  have hpeq : pitSide = pitSide2 := by
    rw [hp] at hpit; exact Option.some.inj hpit
  subst hbeq; subst hpeq
  refine ⟨⟨bs, hbs, findSplit_spec sp "batter" p.bat pitSide bs hbs⟩,
    fun hS hR => ?_, fun hS hL => ?_⟩
  · subst hS; subst hR
    have : hpf = "L" := by
      simp [handednessPitcherFaces] at hhpf; exact hhpf.symm
    subst this
    exact ⟨ps, hps, findSplit_spec sp "pitcher" p.pit "L" ps hps⟩
  · subst hS; subst hL
    have : hpf = "R" := by
      simp [handednessPitcherFaces] at hhpf; exact hhpf.symm
    subst this
    exact ⟨ps, hps, findSplit_spec sp "pitcher" p.pit "R" ps hps⟩

/-- Witness for C2: a switch hitter facing a right-handed pitcher; the
pitcher's split row is keyed vs left-handed batters, the batter's own
split row is keyed by the pitcher's actual hand R. -/
theorem switch_hitter_lookup_witness :
    (∃ bs, findSplit splits1 "batter" pair1.bat "R" = some bs ∧
      bs.player_type = "batter" ∧ bs.player_id = pair1.bat ∧
      bs.vs_handedness = "R") ∧
    ("S" = "S" → "R" = "R" →
      ∃ ps, findSplit splits1 "pitcher" pair1.pit "L" = some ps ∧
        ps.player_type = "pitcher" ∧ ps.player_id = pair1.pit ∧
        ps.vs_handedness = "L") ∧
    ("S" = "S" → "R" = "L" →
      ∃ ps, findSplit splits1 "pitcher" pair1.pit "R" = some ps ∧
        ps.player_type = "pitcher" ∧ ps.player_id = pair1.pit ∧
        ps.vs_handedness = "R") :=
  switch_hitter_lookup "2025-05-12" splits1 batMap1 pitMap1 pair1 matchup1
    "S" "R" buildUpsert_pair1 (by simp [batMap1, pair1]) (by simp [pitMap1, pair1])

/-- C6: the output home-run rate is the mean of the two freshly computed
ratios home runs over plate appearances, and both plate-appearance
denominators are strictly positive whenever a record is produced. -/
theorem hr_rate_fresh (gd : String) (sp : List Split)
    (bm pm : Nat → Option String) (p : LookupPair) (m : DailyMatchup)
    (hm : buildUpsert gd sp bm pm p = some m) :
    ∃ batSide pitSide hpf ps bs ps_hrs ps_pa bs_hrs bs_pa,
      bm p.bat = some batSide ∧ pm p.pit = some pitSide ∧
      handednessPitcherFaces batSide pitSide = some hpf ∧
      findSplit sp "pitcher" p.pit hpf = some ps ∧
      findSplit sp "batter" p.bat pitSide = some bs ∧
      ps.hrs = some ps_hrs ∧ ps.pa = some ps_pa ∧
      bs.hrs = some bs_hrs ∧ bs.pa = some bs_pa ∧
      0 < ps_pa ∧ 0 < bs_pa ∧
      m.avg_hr_per_pa = (ps_hrs / ps_pa + bs_hrs / bs_pa) / 2 := by
  obtain ⟨batSide, pitSide, hpf, ps, bs, hbat, hpit, hhpf, hps, hbs,
    v1, v2, v3, v4, v5, v6, v7, v8, v9, v10, v11, v12, v13, v14, v15, v16,
    v17, v18, v19, v20, v21, v22,
    h1, h2, h3, h4, h5, h6, h7, h8, h9, h10, h11, h12, h13, h14, h15, h16,
    h17, h18, h19, h20, h21, h22, hpa1, hpa2, hrec⟩ :=
    buildUpsert_elim gd sp bm pm p m hm
  subst hrec
  exact ⟨batSide, pitSide, hpf, ps, bs, v19, v21, v20, v22, hbat, hpit, hhpf,
    hps, hbs, h19, h21, h20, h22, hpa1, hpa2, rfl⟩

/-- Witness for C6 at the concrete inputs: both rows carry 1 home run in
2 plate appearances, so the output rate is ((1/2) + (1/2)) / 2 = 1/2. -/
theorem hr_rate_fresh_witness :
    (∃ batSide pitSide hpf ps bs ps_hrs ps_pa bs_hrs bs_pa,
      batMap1 pair1.bat = some batSide ∧ pitMap1 pair1.pit = some pitSide ∧
      handednessPitcherFaces batSide pitSide = some hpf ∧
      findSplit splits1 "pitcher" pair1.pit hpf = some ps ∧
      findSplit splits1 "batter" pair1.bat pitSide = some bs ∧
      ps.hrs = some ps_hrs ∧ ps.pa = some ps_pa ∧
      bs.hrs = some bs_hrs ∧ bs.pa = some bs_pa ∧
      0 < ps_pa ∧ 0 < bs_pa ∧
      matchup1.avg_hr_per_pa = (ps_hrs / ps_pa + bs_hrs / bs_pa) / 2) ∧
    matchup1.avg_hr_per_pa = 1/2 :=
  ⟨hr_rate_fresh "2025-05-12" splits1 batMap1 pitMap1 pair1 matchup1
    buildUpsert_pair1, rfl⟩

/-- C10: the persisted record stores the batter's listed standing side
(which is S for a switch hitter, never the resolved effective side) as
`batter_hand`, and the pitcher's actual throwing hand as
`pitcher_hand`. -/
theorem hands_recorded (gd : String) (sp : List Split)
    (bm pm : Nat → Option String) (p : LookupPair) (m : DailyMatchup)
    (batSide pitSide : String)
    (hm : buildUpsert gd sp bm pm p = some m)
    (hb : bm p.bat = some batSide) (hp : pm p.pit = some pitSide) :
    m.batter_hand = batSide ∧ m.pitcher_hand = pitSide := by
  obtain ⟨batSide2, pitSide2, hpf, ps, bs, hbat, hpit, hhpf, hps, hbs,
    v1, v2, v3, v4, v5, v6, v7, v8, v9, v10, v11, v12, v13, v14, v15, v16,
    v17, v18, v19, v20, v21, v22,
    h1, h2, h3, h4, h5, h6, h7, h8, h9, h10, h11, h12, h13, h14, h15, h16,
    h17, h18, h19, h20, h21, h22, hpa1, hpa2, hrec⟩ :=
    buildUpsert_elim gd sp bm pm p m hm
  have hbeq : batSide = batSide2 := by
    rw [hb] at hbat; exact Option.some.inj hbat
  have hpeq : pitSide = pitSide2 := by
    rw [hp] at hpit; exact Option.some.inj hpit
  subst hbeq; subst hpeq; subst hrec
  exact ⟨rfl, rfl⟩

/-- Witness for C10: the switch hitter's record stores the listed side S
as `batter_hand` (not the effective side L it batted from) and the
pitcher's actual hand R. -/
theorem hands_recorded_witness :
    (matchup1.batter_hand = "S" ∧ matchup1.pitcher_hand = "R") ∧
    matchup1.batter_hand ≠ "L" :=
  ⟨hands_recorded "2025-05-12" splits1 batMap1 pitMap1 pair1 matchup1
    "S" "R" buildUpsert_pair1 (by simp [batMap1, pair1]) (by simp [pitMap1, pair1]),
    by simp [matchup1]⟩


/-- Helper: the row a batch upsert leaves at key `k` is the last record
of the batch whose natural key is `k`, or the prior row when none is. -/
theorem upsertAll_apply (rs : List DailyMatchup) (t : Table)
    (k : String × Nat × Nat) :
    upsertAll t rs k =
      match rs.reverse.find? (fun r => decide (dmKey r = k)) with
      | some r => some r
      | none => t k := by
  induction rs generalizing t with
  | nil => simp [upsertAll]
  | cons r rs ih =>
    show upsertAll (applyUpsert t r) rs k = _
    rw [ih]
    simp only [List.reverse_cons, List.find?_append]
    cases hfind : rs.reverse.find? (fun r => decide (dmKey r = k)) with
    | some r2 => simp
    | none =>
      simp only [Option.none_or]
      simp only [List.find?_cons, List.find?_nil]
      rcases hdec : decide (dmKey r = k) with _ | _
      · simp only [cond_false, applyUpsert]
        rw [if_neg]
        intro hkk
        simp [hkk] at hdec
      · simp only [cond_true, applyUpsert]
        rw [if_pos]
        exact (of_decide_eq_true hdec).symm

/-- C5: running the matchup computation twice in succession for the same
date with unchanged inputs leaves the keyed `daily_matchups` table in
the same final state as running it once; the table holds at most one
row per natural key, so the second run introduces no duplicates. -/
theorem compute_matchups_idempotent (t : Table) (gd : String)
    (sp : List Split) (bm pm : Nat → Option String)
    (pairs : List LookupPair) :
    upsertAll (upsertAll t (buildUpserts gd sp bm pm pairs))
        (buildUpserts gd sp bm pm pairs) =
      upsertAll t (buildUpserts gd sp bm pm pairs) := by
  funext k
  rw [upsertAll_apply, upsertAll_apply]
  cases hfind : (buildUpserts gd sp bm pm pairs).reverse.find?
      (fun r => decide (dmKey r = k)) with
  | some r => rfl
  | none => rfl


/-- Table state with no rows. -/
def emptyTable : Table := fun _ => none

/-- Record for game 100 of a doubleheader date. -/
def dhMatchupA : DailyMatchup := { matchup1 with game_pk := 100 }

/-- Record for game 200 of the same date, batter and pitcher. -/
def dhMatchupB : DailyMatchup := { matchup1 with game_pk := 200 }

/-- Counterexample for C8: the `daily_matchups` primary key is
`(game_date, batter_id, pitcher_id)` in every schema revision in the
repository; `game_pk` is a plain column, never part of the key.  Two
records for the same date, batter and pitcher but different games
therefore share one key, and upserting both leaves only the second:
doubleheader rows cannot coexist. -/
theorem doubleheader_key_cex :
    dhMatchupA.game_date = dhMatchupB.game_date ∧
    dhMatchupA.batter_id = dhMatchupB.batter_id ∧
    dhMatchupA.pitcher_id = dhMatchupB.pitcher_id ∧
    dhMatchupA.game_pk ≠ dhMatchupB.game_pk ∧
    dmKey dhMatchupA = dmKey dhMatchupB ∧
    upsertAll emptyTable [dhMatchupA, dhMatchupB] (dmKey dhMatchupA) =
      some dhMatchupB ∧
    dhMatchupA ≠ dhMatchupB := by
  refine ⟨rfl, rfl, rfl, by decide, rfl, ?_, ?_⟩
  · show applyUpsert (applyUpsert emptyTable dhMatchupA) dhMatchupB
      (dmKey dhMatchupA) = some dhMatchupB
    simp [applyUpsert, dmKey, dhMatchupA, dhMatchupB]
  · intro h
    have : dhMatchupA.game_pk = dhMatchupB.game_pk := by rw [h]
    simp [dhMatchupA, dhMatchupB] at this

/-- C8 amended: rows are upserted under the natural key
`(game_date, batter_id, pitcher_id)` alone; `game_pk` is stored but not
part of the key, so a second record for the same date, batter and
pitcher — even from a different game — replaces the first instead of
coexisting with it. -/
theorem daily_matchups_key (m1 m2 : DailyMatchup)
    (hdate : m1.game_date = m2.game_date)
    (hbat : m1.batter_id = m2.batter_id)
    (hpit : m1.pitcher_id = m2.pitcher_id) :
    dmKey m1 = dmKey m2 ∧
    ∀ t : Table, upsertAll t [m1, m2] (dmKey m1) = some m2 := by
  have hk : dmKey m1 = dmKey m2 := by
    simp [dmKey, hdate, hbat, hpit]
  refine ⟨hk, fun t => ?_⟩
  show applyUpsert (applyUpsert t m1) m2 (dmKey m1) = some m2
  simp [applyUpsert, hk]

/-- Witness for the amended C8 at the two doubleheader records. -/
theorem daily_matchups_key_witness :
    dmKey dhMatchupA = dmKey dhMatchupB ∧
    ∀ t : Table, upsertAll t [dhMatchupA, dhMatchupB] (dmKey dhMatchupA) =
      some dhMatchupB :=
  daily_matchups_key dhMatchupA dhMatchupB rfl rfl rfl


/-- Helper: `processTeamLineup` emits one pair per roster entry whose
person and id are present. -/
theorem processTeamLineup_length (gamePk homeTeamId awayTeamId : Nat)
    (hA aA bT pT : Option String) (battingOrder : Option (List Nat))
    (roster : List RosterPlayer) (starterId : Nat) (starterName : String)
    (hc : ∀ rp ∈ roster, ∃ person pid,
      rp.person = some person ∧ person.id = some pid) :
    (processTeamLineup gamePk homeTeamId awayTeamId hA aA bT pT
        battingOrder roster starterId starterName).length = roster.length := by
  induction roster with
  | nil => rfl
  | cons rp rest ih =>
    obtain ⟨person, pid, hp, hid⟩ := hc rp (List.mem_cons_self rp rest)
    have hrest := ih fun q hq => hc q (List.mem_cons_of_mem rp hq)
    simp only [processTeamLineup, List.filterMap_cons, hp, hid] at hrest ⊢
    simp [hrest]

/-- Helper: every pair emitted by `processTeamLineup` carries the
per-pair data of some roster entry; its lineup position is non-null
exactly when the published order (if any) contains the batter. -/
theorem processTeamLineup_mem (gamePk homeTeamId awayTeamId : Nat)
    (hA aA bT pT : Option String) (battingOrder : Option (List Nat))
    (roster : List RosterPlayer) (starterId : Nat) (starterName : String)
    (q : LookupPair)
    (hq : q ∈ processTeamLineup gamePk homeTeamId awayTeamId hA aA bT pT
        battingOrder roster starterId starterName) :
    q.lineupPosition =
      battingOrder.bind fun bo => (bo.indexOf? q.bat).map (· + 1) := by
  obtain ⟨rp, hrp, hf⟩ := List.mem_filterMap.mp hq
  cases hperson : rp.person with
  | none => simp [hperson] at hf
  | some person =>
    cases hid : person.id with
    | none => simp [hperson, hid] at hf
    | some pid =>
      simp only [hperson, hid] at hf
      have := Option.some.inj hf
      subst this
      cases battingOrder <;> rfl

/-- Counterexample for C4: a home team with a published 9-player batting
order but a 26-player active roster.  The pair generator always iterates
the full roster, so it emits 26 home pairs (9 with a lineup position and
17 without), not exactly 9. -/
theorem roster_fallback_count_cex :
    (processTeamLineup 7 10 20 none none none none
        (some [1, 2, 3, 4, 5, 6, 7, 8, 9])
        ((List.range 26).map fun i =>
          { person := some { id := some (i + 1), fullName := "x" } })
        50 "P").length = 26 ∧
    (processTeamLineup 7 10 20 none none none none
        (some [1, 2, 3, 4, 5, 6, 7, 8, 9])
        ((List.range 26).map fun i =>
          { person := some { id := some (i + 1), fullName := "x" } })
        50 "P").length ≠ 9 := by
  constructor <;> decide

/-- C4 amended: with every roster entry complete, the generator emits
one pair per active-roster player on each side — the side with a
published order gets `roster.length` pairs whose lineup positions are
non-null exactly for the players listed in the order, and the side with
no published order gets one pair per roster player, all with null
lineup position.  (The spec's expected count of 9 for the side with a
published 9-player order holds only when that roster has exactly the 9
listed players; part_005's display layer, not the generator, narrows
published-order sides to the listed batters.) -/
theorem roster_fallback_counts (gamePk homeTeamId awayTeamId : Nat)
    (hA aA bT pT : Option String) (bo : List Nat)
    (homeRoster awayRoster : List RosterPlayer)
    (homeStarterId awayStarterId : Nat) (hName aName : String)
    (hhome : ∀ rp ∈ homeRoster, ∃ person pid,
      rp.person = some person ∧ person.id = some pid)
    (haway : ∀ rp ∈ awayRoster, ∃ person pid,
      rp.person = some person ∧ person.id = some pid) :
    (processTeamLineup gamePk homeTeamId awayTeamId hA aA bT pT
        (some bo) homeRoster awayStarterId aName).length =
      homeRoster.length ∧
    (∀ q ∈ processTeamLineup gamePk homeTeamId awayTeamId hA aA bT pT
        (some bo) homeRoster awayStarterId aName,
      (q.lineupPosition ≠ none ↔ q.bat ∈ bo)) ∧
    (processTeamLineup gamePk homeTeamId awayTeamId hA aA bT pT
        none awayRoster homeStarterId hName).length = awayRoster.length ∧
    (∀ q ∈ processTeamLineup gamePk homeTeamId awayTeamId hA aA bT pT
        none awayRoster homeStarterId hName, q.lineupPosition = none) := by
  refine ⟨processTeamLineup_length _ _ _ _ _ _ _ _ _ _ _ hhome,
    fun q hq => ?_,
    processTeamLineup_length _ _ _ _ _ _ _ _ _ _ _ haway,
    fun q hq => ?_⟩
  · have hpos := processTeamLineup_mem _ _ _ _ _ _ _ _ _ _ _ q hq
    rw [hpos]
    simp only [Option.some_bind, ne_eq, Option.map_eq_none',
      List.indexOf?_eq_none_iff]
    simp [not_forall]
  · have hpos := processTeamLineup_mem _ _ _ _ _ _ _ _ _ _ _ q hq
    simpa using hpos

/-- Witness for the amended C4: a 26-player home roster with a published
9-player order gives 26 pairs whose positions are non-null exactly for
batters 1 through 9; a 26-player away roster with no order gives 26
pairs, all with null position. -/
theorem roster_fallback_counts_witness :
    (processTeamLineup 7 10 20 none none none none
        (some [1, 2, 3, 4, 5, 6, 7, 8, 9])
        ((List.range 26).map fun i =>
          { person := some { id := some (i + 1), fullName := "x" } })
        50 "P").length = 26 ∧
    (∀ q ∈ processTeamLineup 7 10 20 none none none none
        (some [1, 2, 3, 4, 5, 6, 7, 8, 9])
        ((List.range 26).map fun i =>
          { person := some { id := some (i + 1), fullName := "x" } })
        50 "P",
      (q.lineupPosition ≠ none ↔ q.bat ∈ [1, 2, 3, 4, 5, 6, 7, 8, 9])) ∧
    (processTeamLineup 7 10 20 none none none none none
        ((List.range 26).map fun i =>
          { person := some { id := some (i + 1), fullName := "x" } })
        60 "Q").length = 26 ∧
    (∀ q ∈ processTeamLineup 7 10 20 none none none none none
        ((List.range 26).map fun i =>
          { person := some { id := some (i + 1), fullName := "x" } })
        60 "Q", q.lineupPosition = none) := by
  have h := roster_fallback_counts 7 10 20 none none none none
    [1, 2, 3, 4, 5, 6, 7, 8, 9]
    ((List.range 26).map fun i =>
      { person := some { id := some (i + 1), fullName := "x" } })
    ((List.range 26).map fun i =>
      { person := some { id := some (i + 1), fullName := "x" } })
    60 50 "Q" "P"
    (by intro rp hrp
        simp only [List.mem_map] at hrp
        obtain ⟨i, _, hi⟩ := hrp
        subst hi
        exact ⟨_, i + 1, rfl, rfl⟩)
    (by intro rp hrp
        simp only [List.mem_map] at hrp
        obtain ⟨i, _, hi⟩ := hrp
        subst hi
        exact ⟨_, i + 1, rfl, rfl⟩)
  obtain ⟨h1, h2, h3, h4⟩ := h
  exact ⟨by rw [h1]; simp, h2, by rw [h3]; simp, h4⟩


/-- Chunking of the unique player-id list, from the ingest handler's
batching loop `for (let i = 0; i < uniquePlayerIds.length;
i += BATCH_SIZE_PLAYER_IDS)` with `BATCH_SIZE_PLAYER_IDS = 100`:
successive `slice(i, i + 100)` windows. -/
def chunk100 (l : List Nat) : List (List Nat) :=
  if h : l = [] then []
  else l.take 100 :: chunk100 (l.drop 100)
termination_by l.length
decreasing_by
  have hpos : 0 < l.length := List.length_pos.mpr h
  simp only [List.length_drop]
  omega

/-- The handler's batch fetch of `player_splits`: issue the store query
for each chunk in order and concatenate (`allSplits.concat(batchData)`)
the results. -/
def fetchSplitsBatched (query : List Nat → List Split)
    (ids : List Nat) : List Split :=
  (chunk100 ids).foldl (fun acc b => acc ++ query b) []

/-- Helper: concatenating the chunks restores the id list. -/
theorem chunk100_join (l : List Nat) : (chunk100 l).flatten = l := by
  induction l using chunk100.induct with
  | case1 => simp [chunk100]
  | case2 l h ih =>
    rw [chunk100, dif_neg h]
    simp [ih]

/-- Helper: there are exactly ceiling of N over 100 chunks. -/
theorem chunk100_length (l : List Nat) :
    (chunk100 l).length = (l.length + 99) / 100 := by
  induction l using chunk100.induct with
  | case1 => simp [chunk100]
  | case2 l h ih =>
    rw [chunk100, dif_neg h]
    have hpos : 0 < l.length := List.length_pos.mpr h
    simp only [List.length_cons, ih, List.length_drop]
    omega

/-- Helper: every chunk is nonempty and holds at most 100 ids. -/
theorem chunk100_sizes (l : List Nat) :
    ∀ c ∈ chunk100 l, c ≠ [] ∧ c.length ≤ 100 := by
  induction l using chunk100.induct with
  | case1 => simp [chunk100]
  | case2 l h ih =>
    rw [chunk100, dif_neg h]
    intro c hc
    rcases List.mem_cons.mp hc with hhead | htail
    · subst hhead
      refine ⟨?_, by simp⟩
      have hpos : 0 < l.length := List.length_pos.mpr h
      intro hnil
      have := congrArg List.length hnil
      simp only [List.length_take, List.length_nil] at this
      omega
    · exact ih c htail

/-- Helper: folding the per-chunk queries with append equals mapping
then concatenating. -/
theorem foldl_append_eq_join (query : List Nat → List Split)
    (cs : List (List Nat)) (acc : List Split) :
    cs.foldl (fun a b => a ++ query b) acc = acc ++ (cs.map query).flatten := by
  induction cs generalizing acc with
  | nil => simp
  | cons c cs ih => simp [ih, List.append_assoc]

/-- C9: the split-statistics batch read chunks the N unique player ids
into consecutive windows of at most 100 (so ceiling of N over 100
queries), concatenates all chunk results, and covers every id — none is
dropped beyond the first chunk. -/
theorem batch_chunking (query : List Nat → List Split) (ids : List Nat) :
    (∀ c ∈ chunk100 ids, c ≠ [] ∧ c.length ≤ 100) ∧
    (chunk100 ids).length = (ids.length + 99) / 100 ∧
    (chunk100 ids).flatten = ids ∧
    (∀ id2 ∈ ids, ∃ c ∈ chunk100 ids, id2 ∈ c) ∧
    fetchSplitsBatched query ids = ((chunk100 ids).map query).flatten := by
  refine ⟨chunk100_sizes ids, chunk100_length ids, chunk100_join ids,
    fun id2 hid => ?_, foldl_append_eq_join query (chunk100 ids) []⟩
  rw [← chunk100_join ids] at hid
  obtain ⟨c, hc, hmem⟩ := List.mem_flatten.mp hid
  exact ⟨c, hc, hmem⟩

/-- The display comparator from `src/pages/api/matchups.ts`: non-null
lineup positions first (a negative result means the first argument
sorts earlier), ascending by position, and for equal or both-null
positions descending by averaged xwOBA. -/
def matchupCompare (a b : DailyMatchup) : ℚ :=
  match a.lineup_position, b.lineup_position with
  | some _, none => -1
  | none, some _ => 1
  | some la, some lb =>
      if la ≠ lb then (la : ℚ) - (lb : ℚ) else b.avg_xwoba - a.avg_xwoba
  | none, none => b.avg_xwoba - a.avg_xwoba

/-- Stable insertion model of sorting a list with the comparator: each
element is placed before the first element it compares below-or-equal. -/
def insertByCompare (x : DailyMatchup) :
    List DailyMatchup → List DailyMatchup
  | [] => [x]
  | y :: ys =>
    if matchupCompare x y ≤ 0 then x :: y :: ys
    else y :: insertByCompare x ys

/-- Sorting a displayed matchup list with the comparator. -/
def sortByCompare (l : List DailyMatchup) : List DailyMatchup :=
  l.foldr insertByCompare []

/-- A displayed matchup differing from `matchup1` only in lineup
position and averaged xwOBA. -/
def mkDisplay (pos : Option Nat) (x : ℚ) : DailyMatchup :=
  { matchup1 with lineup_position := pos, avg_xwoba := x }

/-- Helper: sign characterisation of the display comparator — it ranks
`a` strictly before `b` exactly when `a` has a position and `b` does
not, or both have positions and `a`'s is smaller, or the positions are
equal (or both null) and `a`'s averaged xwOBA is larger. -/
theorem matchupCompare_neg_iff (a b : DailyMatchup) :
    matchupCompare a b < 0 ↔
      ((a.lineup_position ≠ none ∧ b.lineup_position = none) ∨
       (∃ la lb, a.lineup_position = some la ∧
         b.lineup_position = some lb ∧ la < lb) ∨
       (a.lineup_position = b.lineup_position ∧
         b.avg_xwoba < a.avg_xwoba)) := by
  unfold matchupCompare
  cases ha : a.lineup_position with
  | none =>
    cases hb : b.lineup_position with
    | none => simp [ha, hb, sub_neg]
    | some lb => simp [ha, hb]
  | some la =>
    cases hb : b.lineup_position with
    | none => simp [ha, hb]
    | some lb =>
      by_cases hne : la = lb
      · subst hne
        simp [ha, hb, sub_neg]
      · simp only [ha, hb, if_pos (by exact hne), Option.some.injEq]
        constructor
        · intro hlt
          refine Or.inr (Or.inl ⟨la, lb, rfl, rfl, ?_⟩)
          have : (la : ℚ) < lb := by linarith
          exact_mod_cast this
        · rintro (⟨_, hcon⟩ | ⟨la2, lb2, hla2, hlb2, hlt⟩ | ⟨heq, _⟩)
          · exact absurd hcon (by simp)
          · subst hla2
            subst hlb2
            have hql : (la : ℚ) < lb := by exact_mod_cast hlt
            linarith
          · exact absurd heq hne

/-- C7: the per-side display sort orders matchups by lineup position
ascending with nulls last, breaking ties (equal or both-null positions)
by averaged xwOBA descending; sorting entries with positions
[null, 3, 1, null, 2] yields position order [1, 2, 3, null, null]. -/
theorem display_sort_order :
    (∀ a b : DailyMatchup, matchupCompare a b < 0 ↔
      ((a.lineup_position ≠ none ∧ b.lineup_position = none) ∨
       (∃ la lb, a.lineup_position = some la ∧
         b.lineup_position = some lb ∧ la < lb) ∨
       (a.lineup_position = b.lineup_position ∧
         b.avg_xwoba < a.avg_xwoba))) ∧
    (sortByCompare [mkDisplay none 300, mkDisplay (some 3) 350,
        mkDisplay (some 1) 320, mkDisplay none 400,
        mkDisplay (some 2) 310]).map (fun m => m.lineup_position) =
      [some 1, some 2, some 3, none, none] := by
  refine ⟨matchupCompare_neg_iff, ?_⟩
  norm_num [sortByCompare, insertByCompare, matchupCompare, mkDisplay,
    matchup1]

end XwobaMatchups
